import Mathlib

/-!
# Verification of the calculation engine of the concrete dispatch manager

Shallow embedding of the dispatch calculation engine (`calculator.py`,
`models.py`, and the batch-commit endpoint of `app.py`) of the
ready-mix-concrete dispatch manager, together with proofs and refutations
of the specified properties.

Modelling conventions:
* Python floats are modelled as `Rat`; `round(x, 2)` is modelled exactly
  (round half to even on the rational value).
* Arithmetic on `Rat` is written with the structural operations
  `qadd`, `qsub`, `qmul`, `qdiv`, `qlt`, `qle`, `qfloor` below, proved
  equal to the ordinary `Rat` operations; the ordinary ones are
  `@[irreducible]` in core, which would block evaluation of the embedding
  on concrete inputs.
* SQLAlchemy rows are Lean structures; a nullable column is an `Option`.
* The session (`SessionLocal` is created with `autoflush=False`) is
  modelled by a state carrying the committed database plus a list of
  pending (added-but-unflushed) rows.  Queries read only the committed
  database, because with `autoflush=False` pending inserts are invisible
  to queries until `commit()`.
* `difflib.get_close_matches` is an external library routine, not
  repository code; it is modelled as an oracle parameter carried by the
  database value (`closeMatch`).  Every property proved here is
  independent of the oracle.
-/

set_option autoImplicit false

namespace Concrete

/-! ## Structural rational arithmetic -/

/-- Embed an integer into `Rat` (constant-depth, unlike the unary
`Int.cast` default path). -/
def ratOfInt (i : Int) : Rat := mkRat i 1

/-- Embed a natural number into `Rat`. -/
def ratOfNat (n : Nat) : Rat := mkRat (Int.ofNat n) 1

/-- Rational addition in evaluable `mkRat` form. -/
def qadd (a b : Rat) : Rat := mkRat (a.num * b.den + b.num * a.den) (a.den * b.den)

/-- Rational subtraction in evaluable `mkRat` form. -/
def qsub (a b : Rat) : Rat := mkRat (a.num * b.den - b.num * a.den) (a.den * b.den)

/-- Rational multiplication in evaluable `mkRat` form. -/
def qmul (a b : Rat) : Rat := mkRat (a.num * b.num) (a.den * b.den)

/-- Rational negation in evaluable `mkRat` form. -/
def qneg (a : Rat) : Rat := mkRat (-a.num) a.den

/-- Rational inverse in evaluable `divInt` form. -/
def qinv (a : Rat) : Rat := Rat.divInt (Int.ofNat a.den) a.num

/-- Rational division (`qdiv a 0 = 0`, as for `Rat`). -/
def qdiv (a b : Rat) : Rat := qmul a (qinv b)

/-- Boolean `a ≤ b` by cross multiplication. -/
def qle (a b : Rat) : Bool := decide (a.num * (b.den : Int) ≤ b.num * (a.den : Int))

/-- Boolean `a < b` by cross multiplication. -/
def qlt (a b : Rat) : Bool := decide (a.num * (b.den : Int) < b.num * (a.den : Int))

/-- Floor of a rational, structurally. -/
def qfloor (a : Rat) : Int := a.num / (a.den : Int)

theorem qadd_eq (a b : Rat) : qadd a b = a + b := (Rat.add_def' a b).symm

theorem qsub_eq (a b : Rat) : qsub a b = a - b := (Rat.sub_def' a b).symm

theorem qmul_eq (a b : Rat) : qmul a b = a * b := by
  rw [Rat.mul_def, qmul, mkRat]
  simp [Nat.mul_ne_zero a.den_nz b.den_nz]

theorem qneg_eq (a : Rat) : qneg a = -a := by
  have h1 : -a.num = (-a).num := (Rat.neg_num a).symm
  have h2 : a.den = (-a).den := (Rat.neg_den a).symm
  rw [qneg, h1, h2, Rat.mkRat_self]

theorem qinv_eq (a : Rat) : qinv a = a⁻¹ := by
  rw [Rat.inv_def']; rfl

theorem qdiv_eq (a b : Rat) : qdiv a b = a / b := by
  rw [qdiv, qmul_eq, qinv_eq, div_eq_mul_inv]

theorem qle_iff (a b : Rat) : qle a b = true ↔ a ≤ b := by
  rw [Rat.le_def]; simp [qle]

theorem qlt_iff (a b : Rat) : qlt a b = true ↔ a < b := by
  rw [Rat.lt_def]; simp [qlt]

theorem qfloor_eq (a : Rat) : qfloor a = ⌊a⌋ := Rat.floor_def.symm

/-! ## Rounding and numeric conversions -/

/-- Python `round(x, 2)`: round to 2 decimal places, ties to even,
modelled exactly on rationals. -/
def round2 (x : Rat) : Rat :=
  let y := qmul x 100
  let f : Int := qfloor y
  let r : Rat := qsub y (ratOfInt f)
  let n : Int :=
    if qlt (mkRat 1 2) r then f + 1
    else if qlt r (mkRat 1 2) then f
    else if f % 2 = 0 then f else f + 1
  qdiv (ratOfInt n) 100

/-- Numeric value of a decimal digit character. -/
def digitVal (c : Char) : Nat := c.toNat - 48

/-- Value of a list of decimal digit characters, most significant
first. -/
def digitsVal (l : List Char) : Nat :=
  l.foldl (fun n c => 10 * n + digitVal c) 0

/-- Decimal digit character for `n < 10`. -/
def digitChar (n : Nat) : Char :=
  Char.ofNat (48 + n)

/-- Fuel-driven decimal printer (most significant digit first). -/
def natToDecimalAux : Nat → Nat → List Char
  | 0, _ => []
  | fuel + 1, n =>
    if n < 10 then [digitChar n]
    else natToDecimalAux fuel (n / 10) ++ [digitChar (n % 10)]

/-- The standard decimal encoding of a natural number. -/
def natToDecimal (n : Nat) : List Char :=
  natToDecimalAux (n + 1) n

/-- Python `f"{n:02d}"`: decimal with zero padding to width 2. -/
def pad2 (n : Nat) : String :=
  if n < 10 then String.mk ('0' :: natToDecimal n) else String.mk (natToDecimal n)

/-- Python `str.strip()`: drop leading and trailing whitespace. -/
def pyStrip (l : List Char) : List Char :=
  ((l.dropWhile Char.isWhitespace).reverse.dropWhile Char.isWhitespace).reverse

/-- Python `float(s)` on a plain decimal literal (optional sign, digits,
optional fraction, surrounding whitespace allowed); `none` models the
`ValueError` raise. -/
def pyFloat? (s : String) : Option Rat :=
  let l := pyStrip s.data
  let (neg, l) := match l with
    | '-' :: rest => (true, rest)
    | '+' :: rest => (false, rest)
    | l => (false, l)
  let intPart := l.takeWhile Char.isDigit
  let rest := l.dropWhile Char.isDigit
  let val? : Option Rat :=
    match rest with
    | [] => if intPart.isEmpty then none else some (ratOfNat (digitsVal intPart))
    | '.' :: frac =>
      if frac.all Char.isDigit ∧ ¬(intPart.isEmpty ∧ frac.isEmpty) then
        some (qadd (ratOfNat (digitsVal intPart))
          (qdiv (ratOfNat (digitsVal frac)) (ratOfNat (10 ^ frac.length))))
      else none
    | _ => none
  val?.map (fun v => if neg then qneg v else v)

/-- Python `int(x)` on a float: truncation toward zero. -/
def pyTrunc (q : Rat) : Int :=
  if qle 0 q then qfloor q else - qfloor (qneg q)

/-- Python `x or d` on an optional numeric field: `None` and `0` both
fall back to the default `d`. -/
def pyOr (o : Option Rat) (d : Rat) : Rat :=
  match o with
  | none => d
  | some v => if v = 0 then d else v

/-! ## Dates -/

/-- A calendar date (only ordering and month/day formatting are
needed). -/
structure Date where
  year : Nat
  month : Nat
  day : Nat
  deriving DecidableEq, Repr

/-- Sort key giving the calendar order used by SQL date comparison. -/
def Date.key (d : Date) : Nat := d.year * 10000 + d.month * 100 + d.day

instance : LE Date := ⟨fun a b => a.key ≤ b.key⟩
instance : LT Date := ⟨fun a b => a.key < b.key⟩

instance (a b : Date) : Decidable (a ≤ b) :=
  inferInstanceAs (Decidable (a.key ≤ b.key))

instance (a b : Date) : Decidable (a < b) :=
  inferInstanceAs (Decidable (a.key < b.key))

/-! ## Data model (`models.py`)

Only the columns read by the calculation engine are carried.  Nullable
columns are `Option`s. -/

/-- Rows of `models.Project` (the `projects` table). -/
structure Project where
  id : Nat
  code : String
  name : String
  default_distance_km : Option Rat
  default_mix_id : Option Nat
  subsidy_threshold_m3 : Option Rat
  subsidy_amount : Option Rat
  is_active : Bool
  deriving DecidableEq, Repr

/-- Rows of `models.Mix` (the `mixes` table). -/
structure Mix where
  id : Nat
  code : String
  psi : Nat
  material_cost_per_m3 : Option Rat
  is_active : Bool
  deriving DecidableEq, Repr

/-- Rows of `models.Truck` (the `trucks` table). -/
structure Truck where
  id : Nat
  code : String
  plate_no : String
  driver_name : Option String
  fuel_l_per_km : Option Rat
  driver_pay_per_trip : Option Rat
  is_active : Bool
  deriving DecidableEq, Repr

/-- Rows of `models.ProjectPrice` (the `project_prices` table).

Modelled from the spec: the `load_min_m3` / `load_max_m3` columns queried
by `DispatchCalculator.get_price` are not declared in `src/models.py`
(the snapshot of the model file is stale); they are modelled as the
optional load-volume window that spec §3 gives for `PriceBand`. -/
structure ProjectPrice where
  id : Nat
  project_id : Nat
  mix_id : Nat
  price_per_m3 : Rat
  effective_from : Option Date
  effective_to : Option Date
  load_min_m3 : Option Rat
  load_max_m3 : Option Rat
  is_active : Bool
  deriving DecidableEq, Repr

/-- Rows of `models.Dispatch` (the `dispatches` table); computed monetary
fields are stored at creation time and never recomputed. -/
structure Dispatch where
  dispatch_no : String
  date : Date
  project_id : Nat
  mix_id : Nat
  truck_id : Nat
  load_m3 : Rat
  distance_km : Rat
  price_per_m3 : Rat
  revenue : Rat
  subsidy : Rat
  total_revenue : Rat
  material_cost : Rat
  fuel_cost : Rat
  driver_cost : Rat
  total_cost : Rat
  gross_profit : Rat
  profit_margin : Rat
  fuel_price : Rat
  status : String
  deriving DecidableEq, Repr

/-- Rows of `models.DailySummary` (bulk daily-aggregate rows; only the
columns read by the engine are carried). -/
structure DailySummary where
  date : Date
  project_id : Nat
  trips : Nat
  total_m3 : Rat
  deriving DecidableEq, Repr

/-- Rows of `DriverAttendance`.

Modelled from the spec: the `DriverAttendance` model is imported and
queried by `calculator.py` but its declaration is missing from
`src/models.py`; spec §3 describes it as a date-scoped number of drivers
on duty, queried by date (`calculate_driver_cost` reads its
`driver_count` for the dispatch date). -/
structure DriverAttendance where
  date : Date
  driver_count : Nat
  deriving DecidableEq, Repr

/-- The queryable store, together with the similarity oracle standing for
the external `difflib.get_close_matches` (query, normalized candidate
labels, cutoff ↦ best match, if any at or above the cutoff). -/
structure Db where
  projects : List Project
  trucks : List Truck
  mixes : List Mix
  prices : List ProjectPrice
  dispatches : List Dispatch
  settings : List (String × String)
  summaries : List DailySummary
  attendance : List DriverAttendance
  closeMatch : String → List String → Rat → Option String

/-- Calculator/session state: committed database, pending (unflushed)
inserts of the session, and the per-instance dispatch-number cache
`_dispatch_no_cache` (association list keyed by `(project.id, date)`). -/
structure St where
  db : Db
  pending : List Dispatch
  cache : List ((Nat × Date) × List String)

/-! ## Errors (`ValueError` raise sites of `calculator.py`) -/

/-- The failure taxonomy of the engine; each constructor corresponds to
one `raise ValueError(...)` site (or a `float(...)` conversion failure)
in `calculator.py`, carrying the data interpolated into the message. -/
inductive CalcError where
  /-- 「資料庫中沒有任何工程/車輛/配比」: the active-entity set is empty. -/
  | emptyCorpus (kind : String)
  /-- 「找不到工程/車輛/配比」: no match at or above the fuzzy cutoff. -/
  | notFound (kind : String) (query : String)
  /-- 「找不到單價」: no price band qualifies. -/
  | noPriceFound (projectCode mixCode : String) (load_m3 : Rat)
  /-- 「疑似重複」: duplicate suspected, carrying the existing record
  number. -/
  | duplicateSuspected (existingNo : String)
  /-- A `float(...)` conversion of a setting value failed. -/
  | badSetting (value : String)
  deriving DecidableEq, Repr

/-! ## Settings (`get_setting`, `get_fuel_price`) -/

/-- `DispatchCalculator.get_setting`: value of the first `Setting` row
with the given key, or the default. -/
def get_setting (db : Db) (key dflt : String) : String :=
  match db.settings.find? (fun kv => kv.1 == key) with
  | some kv => kv.2
  | none => dflt

/-- `DispatchCalculator.get_fuel_price`:
`float(get_setting("fuel_price", "32.5"))`. -/
def get_fuel_price (db : Db) : Except CalcError Rat :=
  let s := get_setting db "fuel_price" "32.5"
  match pyFloat? s with
  | some v => .ok v
  | none => .error (.badSetting s)

/-! ## Parsing (`parse_psi`) -/

/-- Python `s.replace("psi", "")` on an already-lowercased character
list: remove every (non-overlapping, left-to-right) occurrence of
`psi`. -/
def removePsi : List Char → List Char
  | 'p' :: 's' :: 'i' :: rest => removePsi rest
  | c :: rest => c :: removePsi rest
  | [] => []

/-- `DispatchCalculator.parse_psi`: lowercase, drop `"psi"`, strip, keep
the digits (`re.sub(r"\D", "", s)`); `none` if no digit remains; append
`"00"` when at most two digits remain; read the digits as an integer. -/
def parse_psi (raw : String) : Option Nat :=
  let s := pyStrip (removePsi (raw.data.map Char.toLower))
  let digits := s.filter Char.isDigit
  if digits.isEmpty then none
  else
    let digits := if digits.length ≤ 2 then digits ++ ['0', '0'] else digits
    some (digitsVal digits)

/-! ## Fuzzy matching (`normalize`, `fuzzy_match`, `find_*`) -/

/-- `DispatchCalculator.normalize`: trim and upper-case. -/
def normalize (s : String) : String :=
  String.mk ((pyStrip s.data).map Char.toUpper)

/-- `DispatchCalculator.fuzzy_match`: exact normalized equality first
(first candidate wins), then the `difflib` oracle over the normalized
candidates, mapped back to the first original label with that
normalization. -/
def fuzzy_match (db : Db) (query : String) (candidates : List String)
    (cutoff : Rat := mkRat 6 10) : Option String :=
  if query = "" ∨ candidates = [] then none
  else
    let q := normalize query
    match candidates.find? (fun c => normalize c == q) with
    | some c => some c
    | none =>
      match db.closeMatch q (candidates.map normalize) cutoff with
      | some m => candidates.find? (fun c => normalize c == m)
      | none => none

/-- Python `dict` insertion: a fresh key is appended, an existing key
keeps its position but takes the new value. -/
def dictInsert {α : Type} (l : List (String × α)) (k : String) (v : α) :
    List (String × α) :=
  if l.any (fun kv => kv.1 == k) then
    l.map (fun kv => if kv.1 == k then (k, v) else kv)
  else l ++ [(k, v)]

/-- First value stored under a key in a Python-dict association list. -/
def dictLookup {α : Type} (l : List (String × α)) (k : String) : Option α :=
  (l.find? (fun kv => kv.1 == k)).map (fun kv => kv.2)

/-- The `{code: p, name: p}` candidate dictionary of `find_project`. -/
def projectCandidates (ps : List Project) : List (String × Project) :=
  ps.foldl (fun acc p => dictInsert (dictInsert acc p.code p) p.name p) []

/-- `DispatchCalculator.find_project`. -/
def find_project (db : Db) (query : String) : Except CalcError Project :=
  let projects := db.projects.filter (fun p => p.is_active)
  if projects = [] then .error (.emptyCorpus "project")
  else
    let candidates := projectCandidates projects
    match fuzzy_match db query (candidates.map (fun kv => kv.1)) with
    | some matched =>
      match dictLookup candidates matched with
      | some p => .ok p
      | none => .error (.notFound "project" query)
    | none => .error (.notFound "project" query)

/-- The `{code: t, plate_no: t, driver_name?: t}` candidate dictionary of
`find_truck` (`driver_name` only when truthy). -/
def truckCandidates (ts : List Truck) : List (String × Truck) :=
  ts.foldl
    (fun acc t =>
      let acc := dictInsert (dictInsert acc t.code t) t.plate_no t
      match t.driver_name with
      | some dn => if dn = "" then acc else dictInsert acc dn t
      | none => acc)
    []

/-- `DispatchCalculator.find_truck` (fuzzy cutoff 0.5). -/
def find_truck (db : Db) (query : String) : Except CalcError Truck :=
  let trucks := db.trucks.filter (fun t => t.is_active)
  if trucks = [] then .error (.emptyCorpus "truck")
  else
    let candidates := truckCandidates trucks
    match fuzzy_match db query (candidates.map (fun kv => kv.1)) (mkRat 5 10) with
    | some matched =>
      match dictLookup candidates matched with
      | some t => .ok t
      | none => .error (.notFound "truck" query)
    | none => .error (.notFound "truck" query)

/-- `DispatchCalculator.find_mix`: a query parsing to a truthy (nonzero)
strength tries direct `psi` equality first; otherwise (or when no mix has
that strength) fuzzy-match on the mix codes. -/
def find_mix (db : Db) (query : String) : Except CalcError Mix :=
  let mixes := db.mixes.filter (fun m => m.is_active)
  if mixes = [] then .error (.emptyCorpus "mix")
  else
    let byPsi : Option Mix :=
      match parse_psi query with
      | some p => if p ≠ 0 then mixes.find? (fun m => m.psi == p) else none
      | none => none
    match byPsi with
    | some m => .ok m
    | none =>
      let candidates := mixes.map (fun m => (m.code, m))
      match fuzzy_match db query (candidates.map (fun kv => kv.1)) with
      | some matched =>
        match dictLookup candidates matched with
        | some m => .ok m
        | none => .error (.notFound "mix" query)
      | none => .error (.notFound "mix" query)

/-! ## Pricing (`get_price`) -/

/-- The conjunction of the `filter(...)` clauses of
`DispatchCalculator.get_price` on one `ProjectPrice` row. -/
def priceQualifies (pr : ProjectPrice) (projId mixId : Nat) (d : Date)
    (load_m3 : Rat) : Bool :=
  pr.project_id == projId && pr.mix_id == mixId && pr.is_active
    && (match pr.effective_from with | none => true | some f => decide (f ≤ d))
    && (match pr.effective_to with | none => true | some t => decide (d ≤ t))
    && (match pr.load_min_m3 with | none => true | some m => qle m load_m3)
    && (match pr.load_max_m3 with | none => true | some m => qle load_m3 m)

/-- Strict `effective_from DESC NULLS LAST` comparison: `a` sorts
strictly before `b`. -/
def effFromBefore (a b : ProjectPrice) : Bool :=
  match a.effective_from, b.effective_from with
  | some x, some y => decide (y < x)
  | some _, none => true
  | _, _ => false

/-- Strict `ORDER BY load_min_m3 DESC NULLS LAST, effective_from DESC
NULLS LAST` comparison: `a` sorts strictly before `b`. -/
def bandBefore (a b : ProjectPrice) : Bool :=
  match a.load_min_m3, b.load_min_m3 with
  | some x, some y =>
    if qlt y x then true
    else if qlt x y then false
    else effFromBefore a b
  | some _, none => true
  | none, some _ => false
  | none, none => effFromBefore a b

/-- `.order_by(...).first()` over an already-filtered row list: the first
row of a stable sort, i.e. the earliest row not strictly out-ordered by a
later one. -/
def pickBest : List ProjectPrice → Option ProjectPrice
  | [] => none
  | p :: rest =>
    some (rest.foldl (fun b q => if bandBefore q b then q else b) p)

/-- `DispatchCalculator.get_price`. -/
def get_price (db : Db) (project : Project) (mix : Mix)
    (dispatch_date : Date) (load_m3 : Rat) : Except CalcError Rat :=
  let rows := db.prices.filter
    (fun pr => priceQualifies pr project.id mix.id dispatch_date load_m3)
  match pickBest rows with
  | some pr => .ok pr.price_per_m3
  | none => .error (.noPriceFound project.code mix.code load_m3)

/-! ## Cost engine (`calculate_driver_cost`, `calculate_costs`) -/

/-- The audit breakdown returned by `calculate_driver_cost` (the operand
fields of the Python detail dictionary; formula strings are rendered from
these operands and are not separately modelled). -/
structure DriverDetail where
  method : String
  total_salary : Rat
  total_trips : Nat
  amount : Rat
  deriving DecidableEq, Repr

/-- `DispatchCalculator.calculate_driver_cost`: shared-payroll allocation
over the count of the non-cancelled dispatch records of the day plus the
daily-summary trips (plus one when `include_current_trip`), falling back
to the flat per-trip rate when the payroll pool or the trip count is
zero.

With `autoflush=False`, `trip_query.count()` sees only committed rows, so
only `db.dispatches` is consulted. -/
def calculate_driver_cost (db : Db) (dispatch_date : Date)
    (include_current_trip : Bool) (default_per_trip : Rat) :
    Except CalcError (Rat × DriverDetail) := do
  let salStr := get_setting db "driver_daily_salary" "0"
  let driver_daily_salary ←
    match pyFloat? (if salStr = "" then "0" else salStr) with
    | some v => pure v
    | none => throw (.badSetting salStr)
  let cntStr := get_setting db "driver_count" "0"
  let default_driver_count ←
    match pyFloat? (if cntStr = "" then "0" else cntStr) with
    | some v => pure (pyTrunc v)
    | none => throw (.badSetting cntStr)
  let attendance_count :=
    (db.attendance.find? (fun a => a.date == dispatch_date)).map
      (fun a => a.driver_count)
  let driver_count : Int :=
    match attendance_count with
    | some c => (c : Int)
    | none => default_driver_count
  let total_salary := qmul driver_daily_salary (ratOfInt driver_count)
  if qle total_salary 0 then
    pure (round2 default_per_trip,
      ⟨"per_trip", total_salary, 0, round2 default_per_trip⟩)
  else
    let existing_trips :=
      (db.dispatches.filter
        (fun t => t.date == dispatch_date && t.status != "cancelled")).length
    let summary_trips :=
      ((db.summaries.filter (fun s => s.date == dispatch_date)).map
        (fun s => s.trips)).sum
    let total_trips := existing_trips + summary_trips
    let total_trips :=
      if include_current_trip then total_trips + 1 else total_trips
    if total_trips = 0 then
      pure (round2 default_per_trip,
        ⟨"per_trip", total_salary, 0, round2 default_per_trip⟩)
    else
      let per_trip_cost := round2 (qdiv total_salary (ratOfNat total_trips))
      pure (per_trip_cost,
        ⟨"shared_payroll", total_salary, total_trips, per_trip_cost⟩)

/-- The result dictionary of `calculate_costs` (rounded components plus
the driver breakdown). -/
structure CostCalc where
  material_cost : Rat
  fuel_cost : Rat
  driver_cost : Rat
  total_cost : Rat
  driver_detail : DriverDetail
  deriving DecidableEq, Repr

/-- `DispatchCalculator.calculate_costs`. -/
def calculate_costs (db : Db) (_project : Project) (mix : Mix)
    (truck : Truck) (load_m3 distance_km : Rat) (fuel_price : Option Rat)
    (dispatch_date : Option Date) (include_current_trip : Bool) :
    Except CalcError CostCalc := do
  let fuel_price ←
    match fuel_price with
    | some f => pure f
    | none => get_fuel_price db
  let material_cost := qmul load_m3 (pyOr mix.material_cost_per_m3 0)
  let fuel_cost := qmul (qmul (qmul distance_km 2)
    (pyOr truck.fuel_l_per_km (mkRat 5 10))) fuel_price
  let flat := pyOr truck.driver_pay_per_trip 800
  let (driver_cost, driver_detail) ←
    match dispatch_date with
    | some d => calculate_driver_cost db d include_current_trip flat
    | none => pure (flat, (⟨"per_trip", 0, 0, round2 flat⟩ : DriverDetail))
  let total_cost := qadd (qadd material_cost fuel_cost) driver_cost
  pure ⟨round2 material_cost, round2 fuel_cost, round2 driver_cost,
    round2 total_cost, driver_detail⟩

/-! ## Revenue engine (`calculate_revenue`) -/

/-- The result dictionary of `calculate_revenue`, including the operands
of the subsidy audit detail. -/
structure RevenueCalc where
  revenue : Rat
  subsidy : Rat
  total_revenue : Rat
  threshold_m3 : Rat
  applied : Bool
  deriving DecidableEq, Repr

/-- `DispatchCalculator.calculate_revenue`: base revenue plus the
short-load subsidy (`project.subsidy_threshold_m3 or 6.0`,
`project.subsidy_amount or 500.0`). -/
def calculate_revenue (project : Project) (load_m3 price_per_m3 : Rat) :
    RevenueCalc :=
  let revenue := qmul load_m3 price_per_m3
  let threshold := pyOr project.subsidy_threshold_m3 6
  let subsidy : Rat :=
    if qlt load_m3 threshold then pyOr project.subsidy_amount 500 else 0
  let total_revenue := qadd revenue subsidy
  ⟨round2 revenue, round2 subsidy, round2 total_revenue,
    threshold, qlt load_m3 threshold⟩

/-! ## Dispatch numbering (`generate_dispatch_no`) -/

/-- The `MMDD + project code` number stem:
`f"{month:02d}{day:02d}{project.code}"`. -/
def numberStem (project : Project) (dispatch_date : Date) : String :=
  pad2 dispatch_date.month ++ pad2 dispatch_date.day ++ project.code

/-- Lookup in the `_dispatch_no_cache` association list. -/
def cacheLookup (cache : List ((Nat × Date) × List String))
    (key : Nat × Date) : Option (List String) :=
  (cache.find? (fun kv => kv.1 == key)).map (fun kv => kv.2)

/-- Store into the `_dispatch_no_cache` association list (Python dict
assignment: update in place, or append a fresh key). -/
def cacheStore (cache : List ((Nat × Date) × List String))
    (key : Nat × Date) (used : List String) :
    List ((Nat × Date) × List String) :=
  if cache.any (fun kv => kv.1 == key) then
    cache.map (fun kv => if kv.1 == key then (key, used) else kv)
  else cache ++ [(key, used)]

/-- The `while True` search of `generate_dispatch_no`: starting from
`seq`, return the first `stem ++ pad2 seq` not in `used`.  The loop is
translated with explicit fuel; `used.length + 1` attempts always suffice
(proved below), so the fuel-exhausted fallback is unreachable. -/
def findFreeNo (stem : String) (used : List String) : Nat → Nat → String
  | 0, seq => stem ++ pad2 seq
  | fuel + 1, seq =>
    let candidate := stem ++ pad2 seq
    if used.contains candidate then findFreeNo stem used fuel (seq + 1)
    else candidate

/-- `DispatchCalculator.generate_dispatch_no`: on a cache miss for
`(project.id, date)`, load from the committed store every dispatch number
`LIKE f"{stem}%"`; then allocate the first unused `stem ++ seq` (`seq`
from 1) and record it in the cache. -/
def generate_dispatch_no (st : St) (project : Project)
    (dispatch_date : Date) : String × St :=
  let key := (project.id, dispatch_date)
  let stem := numberStem project dispatch_date
  let cache :=
    match cacheLookup st.cache key with
    | some _ => st.cache
    | none =>
      let existing := (st.db.dispatches.filter
        (fun r => stem.data.isPrefixOf r.dispatch_no.data)).map
        (fun r => r.dispatch_no)
      cacheStore st.cache key existing
  let used := (cacheLookup cache key).getD []
  let candidate := findFreeNo stem used (used.length + 1) 1
  (candidate, { st with cache := cacheStore cache key (used ++ [candidate]) })

/-! ## Orchestration (`create_dispatch`, `preview_dispatch`, and the
batch-commit endpoint of `app.py`) -/

/-- The per-trip input of `create_dispatch` / `preview_dispatch`.  The
date is already a `Date`: `parse_date` returns date-typed input
unchanged, and the string-format branch is not needed by any claim. -/
structure Input where
  date : Date
  project_str : String
  truck_str : String
  load_m3 : Rat
  mix_str : Option String
  distance_km : Option Rat
  fuel_price : Option Rat

/-- Python truthiness of an optional string (`if mix_str:`). -/
def strTruthy : Option String → Bool
  | some s => s ≠ ""
  | none => false

/-- Everything computed by `create_dispatch` steps 1–10 (all reads, no
mutation); shared verbatim by `preview_dispatch`. -/
structure PreOut where
  project : Project
  truck : Truck
  mix : Mix
  distance_km : Rat
  fuel_price : Rat
  price_per_m3 : Rat
  rev : RevenueCalc
  cost : CostCalc
  gross_profit : Rat
  profit_margin : Rat
  deriving DecidableEq, Repr

/-- Steps 1–10 of `create_dispatch` (parse, resolve, price, revenue,
cost, profit), in source order. -/
def pipeline_pre (db : Db) (inp : Input) : Except CalcError PreOut := do
  let dispatch_date := inp.date
  let project ← find_project db inp.project_str
  let truck ← find_truck db inp.truck_str
  let mix ←
    if strTruthy inp.mix_str then find_mix db (inp.mix_str.getD "")
    else
      match project.default_mix_id.bind
          (fun mid => db.mixes.find? (fun m => m.id == mid)) with
      | some m => pure m
      | none => find_mix db (get_setting db "default_psi" "3000")
  let distance_km :=
    match inp.distance_km with
    | none => pyOr project.default_distance_km 10
    | some dk => dk
  let fuel_price ←
    match inp.fuel_price with
    | none => get_fuel_price db
    | some f => pure f
  let price_per_m3 ← get_price db project mix dispatch_date inp.load_m3
  let rev := calculate_revenue project inp.load_m3 price_per_m3
  let cost ← calculate_costs db project mix truck inp.load_m3 distance_km
    (some fuel_price) (some dispatch_date) true
  let gross_profit := qsub rev.total_revenue cost.total_cost
  let profit_margin :=
    if qlt 0 rev.total_revenue then
      qmul (qdiv gross_profit rev.total_revenue) 100
    else 0
  pure ⟨project, truck, mix, distance_km, fuel_price, price_per_m3, rev,
    cost, gross_profit, profit_margin⟩

/-- The duplicate query of step 12: first committed record with the same
date, project, truck and load that is not cancelled. -/
def findDuplicate (db : Db) (d : Date) (projId truckId : Nat)
    (load_m3 : Rat) : Option Dispatch :=
  db.dispatches.find? (fun r =>
    r.date == d && r.project_id == projId && r.truck_id == truckId
      && r.load_m3 == load_m3 && r.status != "cancelled")

/-- `DispatchCalculator.create_dispatch` (as called by the batch
endpoint, `auto_commit=False`): steps 1–10, then number allocation (step
11), then the duplicate check (step 12), then the record is built and
added to the session pending inserts (step 13).  The state is returned
alongside the result because the number-cache mutation of step 11
survives a step-12 failure. -/
def create_dispatch (st : St) (inp : Input) :
    Except CalcError Dispatch × St :=
  match pipeline_pre st.db inp with
  | .error e => (.error e, st)
  | .ok pre =>
    let (dispatch_no, st1) := generate_dispatch_no st pre.project inp.date
    match findDuplicate st1.db inp.date pre.project.id pre.truck.id
        inp.load_m3 with
    | some existing => (.error (.duplicateSuspected existing.dispatch_no), st1)
    | none =>
      let d : Dispatch :=
        { dispatch_no := dispatch_no
          date := inp.date
          project_id := pre.project.id
          mix_id := pre.mix.id
          truck_id := pre.truck.id
          load_m3 := inp.load_m3
          distance_km := pre.distance_km
          price_per_m3 := pre.price_per_m3
          revenue := pre.rev.revenue
          subsidy := pre.rev.subsidy
          total_revenue := pre.rev.total_revenue
          material_cost := pre.cost.material_cost
          fuel_cost := pre.cost.fuel_cost
          driver_cost := pre.cost.driver_cost
          total_cost := pre.cost.total_cost
          gross_profit := round2 pre.gross_profit
          profit_margin := round2 pre.profit_margin
          fuel_price := pre.fuel_price
          status := "completed" }
      (.ok d, { st1 with pending := st1.pending ++ [d] })

/-- The success dictionary returned by `preview_dispatch`. -/
structure PreviewData where
  date : Date
  project_code : String
  project_name : String
  truck_code : String
  truck_plate : String
  driver_name : Option String
  mix_code : String
  mix_psi : Nat
  load_m3 : Rat
  distance_km : Rat
  price_per_m3 : Rat
  revenue : Rat
  subsidy : Rat
  total_revenue : Rat
  material_cost : Rat
  fuel_cost : Rat
  driver_cost : Rat
  total_cost : Rat
  gross_profit : Rat
  deriving DecidableEq, Repr

/-- The structured result of `preview_dispatch`: the `status: OK`
dictionary or the `{status: ERROR, error: <message>}` dictionary (the
error value carries the data of the caught exception message). -/
inductive PreviewResult where
  | ok (d : PreviewData)
  | err (e : CalcError)
  deriving DecidableEq, Repr

/-- The success dictionary of `preview_dispatch`, assembled from the
pipeline output (field for field as in the source). -/
def previewOk (date_str : Date) (load_m3 : Rat) (pre : PreOut) : PreviewData :=
  { date := date_str
    project_code := pre.project.code
    project_name := pre.project.name
    truck_code := pre.truck.code
    truck_plate := pre.truck.plate_no
    driver_name := pre.truck.driver_name
    mix_code := pre.mix.code
    mix_psi := pre.mix.psi
    load_m3 := load_m3
    distance_km := pre.distance_km
    price_per_m3 := pre.price_per_m3
    revenue := pre.rev.revenue
    subsidy := pre.rev.subsidy
    total_revenue := pre.rev.total_revenue
    material_cost := pre.cost.material_cost
    fuel_cost := pre.cost.fuel_cost
    driver_cost := pre.cost.driver_cost
    total_cost := pre.cost.total_cost
    gross_profit := round2 pre.gross_profit }

/-- `DispatchCalculator.preview_dispatch`: the whole computation runs
inside `try`; any failure is converted into the structured error
dictionary.  Only read operations occur (the method adds and commits
nothing), so the state is not part of the result type. -/
def preview_dispatch (db : Db) (date_str : Date)
    (project_str truck_str : String) (load_m3 : Rat)
    (mix_str : Option String := none) (distance_km : Option Rat := none) :
    PreviewResult :=
  match pipeline_pre db
      ⟨date_str, project_str, truck_str, load_m3, mix_str, distance_km,
        none⟩ with
  | .ok pre => .ok (previewOk date_str load_m3 pre)
  | .error e => .err e

/-- One line of a `DispatchBatch` (`app.DispatchItem`). -/
structure BatchItem where
  truck : String
  load : Rat
  psi : Option String
  distance : Option Rat

/-- `session.commit()`: pending inserts become committed rows. -/
def dbCommit (st : St) : St :=
  { st with
    db := { st.db with dispatches := st.db.dispatches ++ st.pending }
    pending := [] }

/-- The batch-commit endpoint (`app.commit_dispatch`): one fresh
calculator per request; `create_dispatch` per line, catching per-line
errors and keeping going; a single `db.commit()` at the end when anything
was inserted. -/
def commit_dispatch (st : St) (bdate : Date) (bproject : String)
    (items : List BatchItem) : St × List String × List CalcError :=
  let (st1, inserted, errors) := items.foldl
    (fun acc it =>
      let (st, nos, errs) := acc
      match create_dispatch st
          ⟨bdate, bproject, it.truck, it.load, it.psi, it.distance, none⟩ with
      | (.ok d, st') => (st', nos ++ [d.dispatch_no], errs)
      | (.error e, st') => (st', nos, errs ++ [e]))
    (st, ([] : List String), ([] : List CalcError))
  if inserted.isEmpty then (st1, inserted, errors)
  else (dbCommit st1, inserted, errors)

/-! ## Decidability helper -/

instance exceptDecEq {e a : Type} [DecidableEq e] [DecidableEq a] :
    DecidableEq (Except e a) := fun x y =>
  match x, y with
  | .ok v, .ok w => if h : v = w then isTrue (by rw [h]) else isFalse (by simp [h])
  | .error v, .error w =>
    if h : v = w then isTrue (by rw [h]) else isFalse (by simp [h])
  | .ok _, .error _ => isFalse (by simp)
  | .error _, .ok _ => isFalse (by simp)

/-! ## Concrete scenarios

The reference scenario of spec §8 (project `BIG01`, mix `3000` psi, truck
`D01`, price band 2800/m³, fuel 32.5), instantiated as literal rows, plus
a variant with a nonzero shared-payroll pool. -/

/-- A trivial similarity oracle (never consulted on the exact-match paths
the scenarios exercise). -/
def oracle0 : String → List String → Rat → Option String := fun _ _ _ => none

/-- Project `BIG01`: subsidy threshold 6 m³, subsidy 500, default
distance 10 km. -/
def projBIG : Project :=
  ⟨1, "BIG01", "BigSite", some 10, none, some 6, some 500, true⟩

/-- Mix `3002` at 3000 psi, material cost 1500/m³. -/
def mix3000 : Mix := ⟨1, "3002", 3000, some 1500, true⟩

/-- Truck `D01`: fuel 0.5 L/km, flat driver pay 800. -/
def truckD01 : Truck :=
  ⟨1, "D01", "ABC-123", some "WANG", some (mkRat 5 10), some 800, true⟩

/-- Unwindowed price band of 2800/m³ for (`BIG01`, `3002`). -/
def price2800 : ProjectPrice := ⟨1, 1, 1, 2800, none, none, none, none, true⟩

/-- The §8 store: zero payroll settings, fuel price 32.5. -/
def dbC8 : Db :=
  { projects := [projBIG], trucks := [truckD01], mixes := [mix3000],
    prices := [price2800], dispatches := [],
    settings := [("fuel_price", "32.5"), ("driver_daily_salary", "0"),
      ("driver_count", "0"), ("default_psi", "3000")],
    summaries := [], attendance := [], closeMatch := oracle0 }

/-- Fresh calculator state over the §8 store. -/
def stC8 : St := ⟨dbC8, [], []⟩

/-- January 15, 2025. -/
def d0115 : Date := ⟨2025, 1, 15⟩

/-- The §8 trip: `BIG01`, `D01`, 5 m³, strength `"3000"`. -/
def inpC8 : Input := ⟨d0115, "BIG01", "D01", 5, some "3000", none, none⟩

/-- Same store with payroll pool 8000 (salary 4000 × 2 drivers). -/
def dbPool : Db :=
  { dbC8 with settings := [("fuel_price", "32.5"),
      ("driver_daily_salary", "4000"), ("driver_count", "2"),
      ("default_psi", "3000")] }

/-- Fresh calculator state over the pool-8000 store. -/
def stPool : St := ⟨dbPool, [], []⟩

/-- Batch line: truck `D01`, 5 m³, strength `"3000"`. -/
def item1 : BatchItem := ⟨"D01", 5, some "3000", none⟩

/-- Batch line: truck `D01`, 6 m³, strength `"3000"`. -/
def item2 : BatchItem := ⟨"D01", 6, some "3000", none⟩

/-- Fifteen copies of `item1` (one project, one date). -/
def items15 : List BatchItem := List.replicate 15 item1

/-! ## C8: the reference calculation scenario -/

/-- **C8.** The spec §8 scenario evaluated through `create_dispatch`:
project `BIG01` (threshold 6 m³, subsidy 500, distance 10 km), mix 3000
psi at 1500/m³, truck `D01` (0.5 L/km, flat pay 800), price band 2800/m³,
fuel 32.5, load 5 m³, zero payroll pool, no other same-day trips.  The
record carries revenue 14000, subsidy 500, total revenue 14500, material
7500, fuel 325, driver 800 (flat mode), total cost 8625, gross profit
5875. -/
theorem c8_reference_scenario :
    (create_dispatch stC8 inpC8).1 = .ok
      { dispatch_no := "0115BIG0101", date := d0115, project_id := 1,
        mix_id := 1, truck_id := 1, load_m3 := 5, distance_km := 10,
        price_per_m3 := 2800, revenue := 14000, subsidy := 500,
        total_revenue := 14500, material_cost := 7500, fuel_cost := 325,
        driver_cost := 800, total_cost := 8625, gross_profit := 5875,
        profit_margin := mkRat 1013 25, fuel_price := mkRat 65 2,
        status := "completed" } := by
  decide

/-! ## C1: in-batch trip counting -/

/-- The calculator state right after batch line 1 inserted its record
(still pending, not committed). -/
def stAfterLine1 : St := (create_dispatch stPool inpC8).2

/-- The store after a single two-line batch commit with payroll pool
8000. -/
def stBatch2 : St := (commit_dispatch stPool d0115 "BIG01" [item1, item2]).1

/-- **C1.** Refutation by evaluation: with payroll pool 8000 and an empty
day, a two-line batch commit gives BOTH trips driver cost 8000.  After
line 1 runs, its record sits in `pending` (the session has
`autoflush=False` and the endpoint commits once at the end), so the
trip-count query of line 2 still sees 0 committed same-day trips and uses
`total_trips = 1`; the claim mandates that line 2 observe line 1 and use
`total_trips = 2`, i.e. cost `round2 (8000 / 2) = 4000`. -/
theorem c1_batch_commit_uses_stale_trip_count :
    stAfterLine1.pending.length = 1
    ∧ calculate_driver_cost stAfterLine1.db d0115 true 800
        = .ok (8000, ⟨"shared_payroll", 8000, 1, 8000⟩)
    ∧ stBatch2.db.dispatches.map (fun r => r.driver_cost) = [8000, 8000]
    ∧ round2 (qdiv 8000 2) = 4000
    ∧ (8000 : Rat) ≠ 4000 := by
  refine ⟨by decide, by decide, by decide, by decide, by decide⟩

/-! ## C2: day-level payroll conservation -/

/-- The store after two single-line batches committed in sequence (trip 2
costed with trip 1 already committed). -/
def stSeq2 : St :=
  (commit_dispatch (commit_dispatch stPool d0115 "BIG01" [item1]).1
    d0115 "BIG01" [item2]).1

/-- **C2.** Refutation by evaluation: pool 8000 (salary 4000 × 2
drivers), two trips committed in two successive batches on an empty day,
no daily aggregates.  Trip 1 is costed with divisor 1 (cost 8000) and
trip 2 with divisor 2 (cost 4000); stored costs are final (records are
never recomputed), so the persisted per-trip driver costs of the day sum
to 12000, overshooting the pool 8000 by 4000 — far beyond the claimed
tolerance of N = 2 cents. -/
theorem c2_driver_costs_do_not_sum_to_pool :
    calculate_driver_cost stPool.db d0115 true 800
      = .ok (8000, ⟨"shared_payroll", 8000, 1, 8000⟩)
    ∧ stSeq2.db.dispatches.map (fun r => r.status) = ["completed", "completed"]
    ∧ stSeq2.db.summaries = []
    ∧ (stSeq2.db.dispatches.map (fun r => r.driver_cost)).sum = 12000
    ∧ (12000 : Rat) - 8000 = 4000
    ∧ ¬ ((4000 : Rat) ≤ 2 * (1 / 100)) := by
  have hmap : stSeq2.db.dispatches.map (fun r => r.driver_cost)
      = [8000, 4000] := by decide
  refine ⟨by decide, by decide, by decide, ?_, by norm_num, by norm_num⟩
  rw [hmap]
  norm_num

/-! ## C6: preview is total and structured -/

/-- **C6.** `preview_dispatch` always returns a structured result: the OK
dictionary assembled from the pipeline output when every internal step
succeeds, and the `{status: ERROR, error: e}` dictionary carrying exactly
the error of the failing step otherwise; there is no third outcome (no
uncaught failure).  Freedom from mutation is visible in the embedding
itself: the source method performs only SELECT-backed reads (it never
calls `add` or `commit`), so `preview_dispatch` is a pure function of the
store with no state in its result type. -/
theorem c6_preview_total_and_structured :
    ∀ (db : Db) (d : Date) (ps ts : String) (l : Rat) (ms : Option String)
      (dk : Option Rat),
      (∃ pre, pipeline_pre db ⟨d, ps, ts, l, ms, dk, none⟩ = .ok pre
        ∧ preview_dispatch db d ps ts l ms dk = .ok (previewOk d l pre))
      ∨ (∃ e, pipeline_pre db ⟨d, ps, ts, l, ms, dk, none⟩ = .error e
        ∧ preview_dispatch db d ps ts l ms dk = .err e) := by
  intro db d ps ts l ms dk
  cases h : pipeline_pre db ⟨d, ps, ts, l, ms, dk, none⟩ with
  | ok pre => exact Or.inl ⟨pre, rfl, by simp [preview_dispatch, h]⟩
  | error e => exact Or.inr ⟨e, rfl, by simp [preview_dispatch, h]⟩

/-! ## C10: zero subsidy settings fall back to the defaults -/

/-- **C10.** In `calculate_revenue`, `subsidy_threshold_m3` unset or 0 is
treated as threshold 6.0, and `subsidy_amount` unset or 0 yields subsidy
500.0 whenever the load is below the effective threshold: the Python
`or`-defaults make a configured zero not disable the short-load
subsidy. -/
theorem c10_zero_defaults_do_not_disable_subsidy :
    ∀ (p : Project) (l price : Rat),
      ((p.subsidy_threshold_m3 = none ∨ p.subsidy_threshold_m3 = some 0) →
        (calculate_revenue p l price).threshold_m3 = 6)
      ∧ ((p.subsidy_amount = none ∨ p.subsidy_amount = some 0) →
          l < (calculate_revenue p l price).threshold_m3 →
          (calculate_revenue p l price).subsidy = 500
            ∧ (calculate_revenue p l price).applied = true) := by
  intro p l price
  have h500 : round2 (500 : Rat) = 500 := by decide
  constructor
  · rintro (h | h) <;> simp [calculate_revenue, pyOr, h]
  · intro ha hl
    have hq : qlt l (pyOr p.subsidy_threshold_m3 6) = true := by
      rw [qlt_iff]
      simpa [calculate_revenue] using hl
    simp only [pyOr] at hq
    rcases ha with h | h <;>
      simp [calculate_revenue, pyOr, h, hq, h500]

/-- A project configured with threshold 0 and no subsidy amount. -/
def projZ : Project := ⟨2, "Z01", "ZSite", none, none, some 0, none, true⟩

/-- Witness for C10 at the concrete project `projZ` and load 3 m³. -/
theorem c10_witness :
    (projZ.subsidy_threshold_m3 = none ∨ projZ.subsidy_threshold_m3 = some 0)
    ∧ (projZ.subsidy_amount = none ∨ projZ.subsidy_amount = some 0)
    ∧ (3 : Rat) < (calculate_revenue projZ 3 1000).threshold_m3
    ∧ (calculate_revenue projZ 3 1000).threshold_m3 = 6
    ∧ (calculate_revenue projZ 3 1000).subsidy = 500 := by
  have h1 : projZ.subsidy_threshold_m3 = none ∨ projZ.subsidy_threshold_m3 = some 0 :=
    Or.inr rfl
  have h2 : projZ.subsidy_amount = none ∨ projZ.subsidy_amount = some 0 :=
    Or.inl rfl
  have hlt : (3 : Rat) < (calculate_revenue projZ 3 1000).threshold_m3 :=
    (qlt_iff _ _).mp (by decide)
  exact ⟨h1, h2, hlt,
    (c10_zero_defaults_do_not_disable_subsidy projZ 3 1000).1 h1,
    ((c10_zero_defaults_do_not_disable_subsidy projZ 3 1000).2 h2 hlt).1⟩

/-! ## Facts about the numbering state -/

/-- The used-number set `generate_dispatch_no` works from: the cache
entry when present, otherwise the store numbers with the matching stem
(what the cache-miss branch loads). -/
def knownNumbers (st : St) (proj : Project) (d : Date) : List String :=
  match cacheLookup st.cache (proj.id, d) with
  | some used => used
  | none =>
    (st.db.dispatches.filter
      (fun r => (numberStem proj d).data.isPrefixOf r.dispatch_no.data)).map
      (fun r => r.dispatch_no)

theorem cacheLookup_cacheStore (c : List ((Nat × Date) × List String))
    (k : Nat × Date) (u : List String) :
    cacheLookup (cacheStore c k u) k = some u := by
  unfold cacheLookup cacheStore
  by_cases h : c.any (fun kv => kv.1 == k)
  · simp only [h, if_true]
    induction c with
    | nil => simp at h
    | cons kv rest ih =>
      by_cases hk : kv.1 == k
      · simp [List.find?, hk]
      · simp only [List.any_cons, hk, Bool.false_or] at h
        simpa [List.find?, hk] using ih h
  · simp only [h, if_false]
    induction c with
    | nil => simp [List.find?]
    | cons kv rest ih =>
      simp only [List.any_cons, Bool.or_eq_true, not_or] at h
      simp only [List.cons_append, List.find?, Bool.not_eq_true] at *
      rw [h.1]
      exact ih h.2

/-- `generate_dispatch_no` in closed form: the returned number is the
first free candidate over `knownNumbers`, the db and the pending inserts
are untouched, and the cache records the allocation. -/
theorem generate_dispatch_no_spec (st : St) (proj : Project) (d : Date) :
    (generate_dispatch_no st proj d).1 =
      findFreeNo (numberStem proj d) (knownNumbers st proj d)
        ((knownNumbers st proj d).length + 1) 1
    ∧ (generate_dispatch_no st proj d).2.db = st.db
    ∧ (generate_dispatch_no st proj d).2.pending = st.pending
    ∧ cacheLookup (generate_dispatch_no st proj d).2.cache (proj.id, d) =
        some (knownNumbers st proj d ++ [(generate_dispatch_no st proj d).1]) := by
  unfold generate_dispatch_no knownNumbers
  cases h : cacheLookup st.cache (proj.id, d) with
  | some used => simp [h, cacheLookup_cacheStore]
  | none => simp [h, cacheLookup_cacheStore]

/-! ## C5: duplicate detection ignores cancelled records -/

/-- **C5.** Once steps 1–10 succeed, commit fails with
`DuplicateSuspected` exactly when a committed non-cancelled record with
the same (date, project, truck, load) exists: the duplicate query returns
`none` iff every matching committed record is cancelled; a `some`
answer makes `create_dispatch` fail with the number of that record; a `none`
answer lets it build the (completed) record — so a cancelled first record
never blocks an identical second trip. -/
theorem c5_duplicate_iff_noncancelled_match (st : St) (inp : Input)
    (pre : PreOut) (h : pipeline_pre st.db inp = .ok pre) :
    (findDuplicate st.db inp.date pre.project.id pre.truck.id inp.load_m3 = none ↔
      ∀ r ∈ st.db.dispatches,
        r.date = inp.date → r.project_id = pre.project.id →
        r.truck_id = pre.truck.id → r.load_m3 = inp.load_m3 →
        r.status = "cancelled")
    ∧ (∀ ex, findDuplicate st.db inp.date pre.project.id pre.truck.id
          inp.load_m3 = some ex →
        (create_dispatch st inp).1 = .error (.duplicateSuspected ex.dispatch_no))
    ∧ (findDuplicate st.db inp.date pre.project.id pre.truck.id
          inp.load_m3 = none →
        ∃ d, (create_dispatch st inp).1 = .ok d ∧ d.status = "completed") := by
  obtain ⟨no, st1, hg⟩ :
      ∃ no st1, generate_dispatch_no st pre.project inp.date = (no, st1) :=
    ⟨_, _, rfl⟩
  have hdb : st1.db = st.db := by
    have := (generate_dispatch_no_spec st pre.project inp.date).2.1
    rw [hg] at this
    exact this
  refine ⟨?_, ?_, ?_⟩
  · unfold findDuplicate
    rw [List.find?_eq_none]
    constructor
    · intro hall r hr h1 h2 h3 h4
      have hp := hall r hr
      simp only [h1, h2, h3, h4, beq_self_eq_true, Bool.true_and, bne,
        Bool.not_eq_true', beq_iff_eq, Bool.and_eq_true, decide_eq_true_eq,
        not_and, Bool.not_eq_false] at hp
      simpa using hp
    · intro hall r hr
      by_cases h1 : r.date = inp.date
      · by_cases h2 : r.project_id = pre.project.id
        · by_cases h3 : r.truck_id = pre.truck.id
          · by_cases h4 : r.load_m3 = inp.load_m3
            · have := hall r hr h1 h2 h3 h4
              simp [h1, h2, h3, h4, this, bne]
            · simp [h4]
          · simp [h3]
        · simp [h2]
      · simp [h1]
  · intro ex hdup
    rw [← hdb] at hdup
    simp only [create_dispatch, h, hg, hdup]
  · intro hdup
    rw [← hdb] at hdup
    have hcd : (create_dispatch st inp).1 = .ok
        (Dispatch.mk no inp.date pre.project.id pre.mix.id pre.truck.id
          inp.load_m3 pre.distance_km pre.price_per_m3 pre.rev.revenue
          pre.rev.subsidy pre.rev.total_revenue pre.cost.material_cost
          pre.cost.fuel_cost pre.cost.driver_cost pre.cost.total_cost
          (round2 pre.gross_profit) (round2 pre.profit_margin)
          pre.fuel_price "completed") := by
      simp only [create_dispatch, h, hg, hdup]
    exact ⟨_, hcd, rfl⟩

/-- The record persisted by the §8 trip (as committed). -/
def recC8 : Dispatch :=
  { dispatch_no := "0115BIG0101", date := d0115, project_id := 1,
    mix_id := 1, truck_id := 1, load_m3 := 5, distance_km := 10,
    price_per_m3 := 2800, revenue := 14000, subsidy := 500,
    total_revenue := 14500, material_cost := 7500, fuel_cost := 325,
    driver_cost := 800, total_cost := 8625, gross_profit := 5875,
    profit_margin := mkRat 1013 25, fuel_price := mkRat 65 2,
    status := "completed" }

/-- Fresh calculator state over the §8 store with `recC8` already
committed. -/
def stDup : St := ⟨{ dbC8 with dispatches := [recC8] }, [], []⟩

/-- Same, but the committed record has been cancelled. -/
def stDupCancelled : St :=
  ⟨{ dbC8 with dispatches := [{ recC8 with status := "cancelled" }] }, [], []⟩

/-- The pipeline output for the §8 trip (same over `stDup` and
`stDupCancelled`: with a zero payroll pool the committed records do not
enter the costing). -/
def preC8 : PreOut :=
  { project := projBIG, truck := truckD01, mix := mix3000,
    distance_km := 10, fuel_price := mkRat 65 2, price_per_m3 := 2800,
    rev := ⟨14000, 500, 14500, 6, true⟩,
    cost := ⟨7500, 325, 800, 8625, ⟨"per_trip", 0, 0, 800⟩⟩,
    gross_profit := 5875, profit_margin := mkRat 1175 29 }

/-- Witness for C5: over `stDup` the identical second trip fails with
`DuplicateSuspected 0115BIG0101`; after the status of the record transitions
to cancelled (`stDupCancelled`) the identical trip succeeds. -/
theorem c5_witness :
    pipeline_pre stDup.db inpC8 = .ok preC8
    ∧ (create_dispatch stDup inpC8).1
        = .error (.duplicateSuspected "0115BIG0101")
    ∧ pipeline_pre stDupCancelled.db inpC8 = .ok preC8
    ∧ (∃ d, (create_dispatch stDupCancelled inpC8).1 = .ok d
        ∧ d.status = "completed") := by
  have h1 : pipeline_pre stDup.db inpC8 = .ok preC8 := by decide
  have h2 : pipeline_pre stDupCancelled.db inpC8 = .ok preC8 := by decide
  refine ⟨h1, ?_, h2, ?_⟩
  · exact (c5_duplicate_iff_noncancelled_match stDup inpC8 preC8 h1).2.1
      recC8 (by decide)
  · exact (c5_duplicate_iff_noncancelled_match stDupCancelled inpC8 preC8
      h2).2.2 (by decide)

/-! ## C4: ordering of duplicate detection and number allocation -/

/-- **C4, counterexample.**  Against a store already holding the
identical committed record `0115BIG0101`, a second identical commit
fails with `DuplicateSuspected` — but the per-instance numbering cache,
empty before the call, afterwards holds the freshly allocated
`0115BIG0102`: the failed commit DID allocate a number and DID change
the (project, date) numbering state, refuting the claimed ordering. -/
theorem c4_counterexample :
    (create_dispatch stDup inpC8).1
      = .error (.duplicateSuspected "0115BIG0101")
    ∧ stDup.cache = []
    ∧ (create_dispatch stDup inpC8).2.cache
        = [((1, d0115), ["0115BIG0101", "0115BIG0102"])] := by
  exact ⟨by decide, rfl, by decide⟩

/-- **C4, amended.**  In commit, dispatch-number allocation (source step
11) runs BEFORE duplicate detection (source step 12).  A commit attempt
that fails with `DuplicateSuspected` persists nothing — committed rows
and pending inserts are unchanged — but it has already allocated a
dispatch number: the per-instance (project, date) cache afterwards
contains the used set extended by the freshly allocated number, so the
failed attempt consumes a sequence number within that calculator
instance. -/
theorem c4_allocation_precedes_duplicate_check (st : St) (inp : Input)
    (pre : PreOut) (ex : Dispatch)
    (h : pipeline_pre st.db inp = .ok pre)
    (hdup : findDuplicate st.db inp.date pre.project.id pre.truck.id
      inp.load_m3 = some ex) :
    (create_dispatch st inp).1 = .error (.duplicateSuspected ex.dispatch_no)
    ∧ (create_dispatch st inp).2.pending = st.pending
    ∧ (create_dispatch st inp).2.db.dispatches = st.db.dispatches
    ∧ cacheLookup (create_dispatch st inp).2.cache (pre.project.id, inp.date)
        = some (knownNumbers st pre.project inp.date
            ++ [(generate_dispatch_no st pre.project inp.date).1]) := by
  obtain ⟨no, st1, hg⟩ :
      ∃ no st1, generate_dispatch_no st pre.project inp.date = (no, st1) :=
    ⟨_, _, rfl⟩
  have hspec := generate_dispatch_no_spec st pre.project inp.date
  rw [hg] at hspec
  have hdup1 : findDuplicate st1.db inp.date pre.project.id pre.truck.id
      inp.load_m3 = some ex := by
    rw [hspec.2.1]; exact hdup
  refine ⟨?_, ?_, ?_, ?_⟩
  · simp only [create_dispatch, h, hg, hdup1]
  · simp only [create_dispatch, h, hg, hdup1]
    exact hspec.2.2.1
  · simp only [create_dispatch, h, hg, hdup1]
    rw [hspec.2.1]
  · simp only [create_dispatch, h, hg, hdup1]
    exact hspec.2.2.2

/-- Witness for the amended C4 at the concrete duplicate scenario. -/
theorem c4_witness :
    pipeline_pre stDup.db inpC8 = .ok preC8
    ∧ findDuplicate stDup.db inpC8.date preC8.project.id preC8.truck.id
        inpC8.load_m3 = some recC8
    ∧ (create_dispatch stDup inpC8).1
        = .error (.duplicateSuspected recC8.dispatch_no)
    ∧ (create_dispatch stDup inpC8).2.pending = stDup.pending
    ∧ (create_dispatch stDup inpC8).2.db.dispatches = stDup.db.dispatches
    ∧ cacheLookup (create_dispatch stDup inpC8).2.cache
        (preC8.project.id, inpC8.date)
        = some (knownNumbers stDup preC8.project inpC8.date
            ++ [(generate_dispatch_no stDup preC8.project inpC8.date).1]) := by
  have h1 : pipeline_pre stDup.db inpC8 = .ok preC8 := by decide
  have h2 : findDuplicate stDup.db inpC8.date preC8.project.id
      preC8.truck.id inpC8.load_m3 = some recC8 := by decide
  have hmain := c4_allocation_precedes_duplicate_check stDup inpC8 preC8
    recC8 h1 h2
  exact ⟨h1, h2, hmain.1, hmain.2.1, hmain.2.2.1, hmain.2.2.2⟩

/-! ## Decimal-string lemmas for C9 -/

/-- A character that is one of the ten decimal digits. -/
def isDecDigit (c : Char) : Prop := ∃ k, k < 10 ∧ c = digitChar k

theorem digitChar_isDigit {k : Nat} (h : k < 10) :
    (digitChar k).isDigit = true := by
  interval_cases k <;> decide

theorem digitChar_toLower {k : Nat} (h : k < 10) :
    (digitChar k).toLower = digitChar k := by
  interval_cases k <;> decide

theorem digitChar_not_ws {k : Nat} (h : k < 10) :
    (digitChar k).isWhitespace = false := by
  interval_cases k <;> decide

theorem digitChar_ne_p {k : Nat} (h : k < 10) : digitChar k ≠ 'p' := by
  interval_cases k <;> decide

theorem digitVal_digitChar {k : Nat} (h : k < 10) :
    digitVal (digitChar k) = k := by
  interval_cases k <;> decide

theorem digitsVal_append_one (l : List Char) (c : Char) :
    digitsVal (l ++ [c]) = 10 * digitsVal l + digitVal c := by
  simp [digitsVal, List.foldl_append]

theorem digitsVal_append_00 (l : List Char) :
    digitsVal (l ++ ['0', '0']) = 100 * digitsVal l := by
  have h : l ++ ['0', '0'] = (l ++ ['0']) ++ ['0'] := by simp
  rw [h, digitsVal_append_one, digitsVal_append_one]
  simp [digitVal]
  ring

theorem natToDecimalAux_ne_nil (fuel n : Nat) (h : 0 < fuel) :
    natToDecimalAux fuel n ≠ [] := by
  cases fuel with
  | zero => omega
  | succ f =>
    by_cases h10 : n < 10 <;> simp [natToDecimalAux, h10]

theorem natToDecimalAux_spec :
    ∀ (fuel n : Nat), n < fuel →
      (∀ c ∈ natToDecimalAux fuel n, isDecDigit c)
      ∧ digitsVal (natToDecimalAux fuel n) = n
      ∧ natToDecimalAux fuel n ≠ []
      ∧ (n < 100 → (natToDecimalAux fuel n).length ≤ 2)
      ∧ (100 ≤ n → 3 ≤ (natToDecimalAux fuel n).length) := by
  intro fuel
  induction fuel with
  | zero => intro n hn; omega
  | succ f ih =>
    intro n hn
    by_cases h10 : n < 10
    · refine ⟨?_, ?_, ?_, ?_, ?_⟩ <;>
        simp [natToDecimalAux, h10, digitsVal, digitVal_digitChar h10]
      · exact ⟨n, h10, rfl⟩
      · omega
    · have hdivlt : n / 10 < f := by
        have h1 : n / 10 < n := Nat.div_lt_self (by omega) (by omega)
        omega
      have hmod : n % 10 < 10 := Nat.mod_lt _ (by omega)
      obtain ⟨ihd, ihv, ihne, ihlen2, ihlen3⟩ := ih (n / 10) hdivlt
      have hunf : natToDecimalAux (f + 1) n
          = natToDecimalAux f (n / 10) ++ [digitChar (n % 10)] := by
        simp [natToDecimalAux, h10]
      refine ⟨?_, ?_, ?_, ?_, ?_⟩
      · intro c hc
        rw [hunf] at hc
        rcases List.mem_append.mp hc with hc | hc
        · exact ihd c hc
        · simp at hc
          exact ⟨n % 10, hmod, hc⟩
      · rw [hunf, digitsVal_append_one, ihv, digitVal_digitChar hmod]
        omega
      · rw [hunf]; simp
      · intro hn100
        rw [hunf]
        have : n / 10 < 10 := by omega
        have hlen1 : (natToDecimalAux f (n / 10)).length ≤ 2 := ihlen2 (by omega)
        -- for n ≥ 10 with n < 100, the head part is a single digit
        have hlen : (natToDecimalAux f (n / 10)).length = 1 := by
          cases hf : f with
          | zero => omega
          | succ f2 =>
            have : n / 10 < 10 := by omega
            simp [hf, natToDecimalAux, this]
        simp [hlen]
      · intro hn100
        rw [hunf]
        have h1 : 10 ≤ n / 10 := by omega
        have hlen2 : 2 ≤ (natToDecimalAux f (n / 10)).length := by
          cases hf : f with
          | zero => omega
          | succ f2 =>
            have hh : ¬ (n / 10 < 10) := by omega
            have hne2 : natToDecimalAux f2 (n / 10 / 10) ≠ [] :=
              natToDecimalAux_ne_nil f2 (n / 10 / 10) (by omega)
            have h1p : 1 ≤ (natToDecimalAux f2 (n / 10 / 10)).length :=
              List.length_pos.mpr hne2
            simp [natToDecimalAux, hh]
            omega
        simp
        omega

theorem removePsi_of_no_p : ∀ (l : List Char), (∀ c ∈ l, c ≠ 'p') →
    removePsi l = l := by
  intro l
  induction l with
  | nil => intro; rfl
  | cons c rest ih =>
    intro h
    have hc : c ≠ 'p' := h c (List.mem_cons_self c rest)
    rw [removePsi.eq_def]
    split
    · rename_i heq
      simp at heq
      exact absurd heq.1 hc
    · rename_i c2 rest2 heq
      injection heq with h1 h2
      subst h1
      subst h2
      exact congrArg (fun t => c :: t)
        (ih (fun x hx => h x (List.mem_cons_of_mem c hx)))
    · rename_i heq
      simp at heq

theorem dropWhile_of_all_false {p : Char → Bool} :
    ∀ (l : List Char), (∀ c ∈ l, p c = false) → l.dropWhile p = l := by
  intro l h
  cases l with
  | nil => rfl
  | cons c rest =>
    simp [List.dropWhile, h c (List.mem_cons_self c rest)]

theorem pyStrip_of_no_ws (l : List Char)
    (h : ∀ c ∈ l, c.isWhitespace = false) : pyStrip l = l := by
  unfold pyStrip
  rw [dropWhile_of_all_false l h,
    dropWhile_of_all_false l.reverse (fun c hc => h c (List.mem_reverse.mp hc)),
    List.reverse_reverse]

theorem map_toLower_id (l : List Char) (hl : ∀ c ∈ l, isDecDigit c) :
    l.map Char.toLower = l := by
  induction l with
  | nil => rfl
  | cons c rest ih =>
    obtain ⟨k, hk, hck⟩ := hl c (List.mem_cons_self c rest)
    simp only [List.map_cons]
    rw [hck, digitChar_toLower hk,
      ih (fun x hx => hl x (List.mem_cons_of_mem c hx))]

/-- `parse_psi` on a string of pure decimal digits: empty gives `none`,
at most two digits give the value times 100 (the appended `"00"`), and a
longer digit string gives the plain value. -/
theorem parse_psi_digits (l : List Char) (hl : ∀ c ∈ l, isDecDigit c) :
    parse_psi (String.mk l) =
      if l.isEmpty then none
      else if l.length ≤ 2 then some (100 * digitsVal l)
      else some (digitsVal l) := by
  have hnp : ∀ c ∈ l, c ≠ 'p' := by
    intro c hc
    obtain ⟨k, hk, hck⟩ := hl c hc
    rw [hck]; exact digitChar_ne_p hk
  have hnws : ∀ c ∈ l, c.isWhitespace = false := by
    intro c hc
    obtain ⟨k, hk, hck⟩ := hl c hc
    rw [hck]; exact digitChar_not_ws hk
  have hdig : ∀ c ∈ l, c.isDigit = true := by
    intro c hc
    obtain ⟨k, hk, hck⟩ := hl c hc
    rw [hck]; exact digitChar_isDigit hk
  have hpipe : pyStrip (removePsi ((String.mk l).data.map Char.toLower)) = l := by
    have hdata : (String.mk l).data = l := rfl
    rw [hdata, map_toLower_id l hl, removePsi_of_no_p l hnp,
      pyStrip_of_no_ws l hnws]
  simp only [parse_psi, hpipe, List.filter_eq_self.mpr hdig]
  by_cases he : l.isEmpty
  · simp [he]
  · by_cases h2 : l.length ≤ 2 <;>
      simp [he, h2, digitsVal_append_00]

/-! ## C9: strength-code parsing -/

/-- **C9, amended.**  `parse_psi` strips `"psi"` case-insensitively and
all non-digit characters, returns `none` when no digits remain, appends
`"00"` when at most two digits remain (multiplying the value by 100),
and otherwise returns the remaining digits as an integer.  The claimed
round-trip — S encoded as decimal `"S"` or `"S/100"` parses back to S —
holds for every strength S that is a multiple of 100 with
100 ≤ S ≤ 9900 (it fails outside this range, see the
counterexample). -/
theorem c9_parse_strength_round_trip :
    (∀ S : Nat, 100 ∣ S → 100 ≤ S → S ≤ 9900 →
      parse_psi (String.mk (natToDecimal S)) = some S
      ∧ parse_psi (String.mk (natToDecimal (S / 100))) = some S)
    ∧ (∀ l : List Char, (∀ c ∈ l, isDecDigit c) →
        parse_psi (String.mk l) =
          if l.isEmpty then none
          else if l.length ≤ 2 then some (100 * digitsVal l)
          else some (digitsVal l))
    ∧ parse_psi "40psi" = some 4000 ∧ parse_psi "30" = some 3000 := by
  refine ⟨?_, parse_psi_digits, by decide, by decide⟩
  intro S hdvd h100 h9900
  constructor
  · obtain ⟨hd, hv, hne, _, hlen3⟩ := natToDecimalAux_spec (S + 1) S (by omega)
    rw [natToDecimal, parse_psi_digits _ hd]
    have hemp : (natToDecimalAux (S + 1) S).isEmpty = false := by
      simp [List.isEmpty_iff, hne]
    have hlen : ¬ (natToDecimalAux (S + 1) S).length ≤ 2 := by
      have := hlen3 h100; omega
    simp [hemp, hlen, hv]
  · obtain ⟨hd, hv, hne, hlen2, _⟩ :=
      natToDecimalAux_spec (S / 100 + 1) (S / 100) (by omega)
    rw [natToDecimal, parse_psi_digits _ hd]
    have hemp : (natToDecimalAux (S / 100 + 1) (S / 100)).isEmpty = false := by
      simp [List.isEmpty_iff, hne]
    have hlen : (natToDecimalAux (S / 100 + 1) (S / 100)).length ≤ 2 :=
      hlen2 (by omega)
    rw [hemp]
    simp only [Bool.false_eq_true, if_false, hlen, if_true, hv]
    rw [Nat.mul_div_cancel' hdvd]

/-- **C9, counterexample.**  The round-trip fails as universally stated:
the strength S = 10000 encoded as `"S/100"`, i.e. the string `"100"`,
parses to 100, not 10000 (three digits, so no `"00"` is appended). -/
theorem c9_counterexample :
    (10000 : Nat) / 100 = 100
    ∧ parse_psi (String.mk (natToDecimal (10000 / 100))) = some 100
    ∧ (100 : Nat) ≠ 10000 := by
  exact ⟨rfl, by decide, by decide⟩

/-- Witness for C9 at S = 3000 (`"3000"` and `"30"` both parse to
3000). -/
theorem c9_witness :
    (100 ∣ 3000 ∧ 100 ≤ 3000 ∧ 3000 ≤ 9900)
    ∧ parse_psi (String.mk (natToDecimal 3000)) = some 3000
    ∧ parse_psi (String.mk (natToDecimal (3000 / 100))) = some 3000 := by
  have h := c9_parse_strength_round_trip.1 3000 (by norm_num) (by norm_num)
    (by norm_num)
  exact ⟨⟨by norm_num, by norm_num, by norm_num⟩, h.1, h.2⟩

/-! ## C7: numbering never reuses an identifier -/

theorem digitsVal_pad2 (n : Nat) : digitsVal (pad2 n).data = n := by
  have hv := (natToDecimalAux_spec (n + 1) n (by omega)).2.1
  unfold pad2
  by_cases h : n < 10
  · simp only [h, if_true]
    show digitsVal ('0' :: natToDecimal n) = n
    have h0 : digitVal '0' = 0 := by decide
    unfold digitsVal at hv ⊢
    rw [List.foldl_cons]
    simpa [h0] using hv
  · simp only [h, if_false]
    exact hv

theorem pad2_inj {a b : Nat} (h : pad2 a = pad2 b) : a = b := by
  have hd := congrArg (fun s => digitsVal s.data) h
  simpa [digitsVal_pad2] using hd

theorem seqNo_inj (stem : String) {a b : Nat}
    (h : stem ++ pad2 a = stem ++ pad2 b) : a = b := by
  have hd := congrArg String.data h
  rw [String.data_append, String.data_append] at hd
  have hsuf := List.append_cancel_left hd
  have := congrArg digitsVal hsuf
  simpa [digitsVal_pad2] using this

theorem countP_or_disjoint {α : Type} (l : List α) (p q : α → Bool)
    (hx : ∀ a ∈ l, ¬(p a = true ∧ q a = true)) :
    l.countP (fun a => p a || q a) = l.countP p + l.countP q := by
  induction l with
  | nil => simp
  | cons a rest ih =>
    have hxr : ∀ x ∈ rest, ¬(p x = true ∧ q x = true) :=
      fun x hx2 => hx x (List.mem_cons_of_mem a hx2)
    cases hp : p a with
    | true =>
      have hq : q a = false := by
        cases hq2 : q a with
        | true => exact absurd ⟨hp, hq2⟩ (hx a (List.mem_cons_self a rest))
        | false => rfl
      simp [List.countP_cons, hp, hq, ih hxr]
      omega
    | false =>
      cases hq : q a with
      | true =>
        simp [List.countP_cons, hp, hq, ih hxr]
        omega
      | false =>
        simp [List.countP_cons, hp, hq, ih hxr]

theorem findFreeNo_not_mem (stem : String) (used : List String) :
    ∀ (fuel seq : Nat),
      used.countP
        (fun s => decide (∃ i, i < fuel ∧ s = stem ++ pad2 (seq + i))) < fuel →
      findFreeNo stem used fuel seq ∉ used := by
  intro fuel
  induction fuel with
  | zero => intro seq h; omega
  | succ f ih =>
    intro seq h
    by_cases hc : (stem ++ pad2 seq) ∈ used
    · have hstep : findFreeNo stem used (f + 1) seq
          = findFreeNo stem used f (seq + 1) := by
        simp [findFreeNo, hc]
      rw [hstep]
      apply ih (seq + 1)
      -- split the fuel+1 candidate set into the head candidate and the
      -- candidates of the recursive call
      have hsplit : (fun s : String =>
            (decide (∃ i, i < f + 1 ∧ s = stem ++ pad2 (seq + i)) : Bool))
          = (fun s : String => (s == stem ++ pad2 seq)
              || decide (∃ i, i < f ∧ s = stem ++ pad2 (seq + 1 + i))) := by
        funext s
        by_cases h1 : s = stem ++ pad2 seq
        · subst h1
          have hP : ∃ i, i < f + 1
              ∧ stem ++ pad2 seq = stem ++ pad2 (seq + i) :=
            ⟨0, by omega, by rw [Nat.add_zero]⟩
          rw [decide_eq_true hP]
          simp
        · have hbeq : (s == stem ++ pad2 seq) = false := by
            simpa using h1
          rw [hbeq, Bool.false_or, decide_eq_decide]
          constructor
          · rintro ⟨i, hi, hs⟩
            cases i with
            | zero => rw [Nat.add_zero] at hs; exact absurd hs h1
            | succ j =>
              refine ⟨j, by omega, ?_⟩
              rw [hs]
              have harg : seq + (j + 1) = seq + 1 + j := by omega
              rw [harg]
          · rintro ⟨j, hj, hs⟩
            refine ⟨j + 1, by omega, ?_⟩
            rw [hs]
            have harg : seq + (j + 1) = seq + 1 + j := by omega
            rw [harg]
      rw [hsplit] at h
      have hdisj : ∀ s ∈ used,
          ¬((s == stem ++ pad2 seq) = true
            ∧ (decide (∃ i, i < f ∧ s = stem ++ pad2 (seq + 1 + i))) = true) := by
        rintro s _ ⟨h1, h2⟩
        simp only [beq_iff_eq] at h1
        simp only [decide_eq_true_eq] at h2
        obtain ⟨i, _, h2⟩ := h2
        rw [h1] at h2
        have := seqNo_inj stem h2
        omega
      rw [countP_or_disjoint used _ _ hdisj] at h
      have hone : 0 < used.countP (fun s => s == stem ++ pad2 seq) := by
        rw [List.countP_pos_iff]
        exact ⟨stem ++ pad2 seq, hc, by simp⟩
      omega
    · have hstep : findFreeNo stem used (f + 1) seq = stem ++ pad2 seq := by
        simp [findFreeNo, hc]
      rw [hstep]
      exact hc

/-- The soundness invariant of the per-instance numbering cache for one
`(project, date)` key: whenever the cache holds a used-set for the key,
every committed record whose number matches the stem is in that set. -/
def numberingInv (st : St) (proj : Project) (d : Date) : Prop :=
  ∀ used, cacheLookup st.cache (proj.id, d) = some used →
    ∀ r ∈ st.db.dispatches,
      (numberStem proj d).data.isPrefixOf r.dispatch_no.data = true →
      r.dispatch_no ∈ used

theorem generate_dispatch_no_fresh (st : St) (proj : Project) (d : Date) :
    (generate_dispatch_no st proj d).1 ∉ knownNumbers st proj d := by
  rw [(generate_dispatch_no_spec st proj d).1]
  apply findFreeNo_not_mem
  calc (knownNumbers st proj d).countP _
      ≤ (knownNumbers st proj d).length := List.countP_le_length _
    _ < (knownNumbers st proj d).length + 1 := by omega

/-- **C7.**  (i) General freshness: under the cache invariant, the
number returned by `generate_dispatch_no` differs from every committed
number with the same stem and from every member of the used-set the
instance tracks (which contains all numbers returned earlier for that
(project, date)); the allocation is recorded in the cache and the
invariant is preserved, so the guarantee carries over a whole sequence
of calls.  (ii) Concretely, committing fifteen trips for one project and
date yields the fifteen distinct sequence suffixes 01–15. -/
theorem c7_numbering_never_reuses :
    (∀ (st : St) (proj : Project) (d : Date),
      numberingInv st proj d →
      ((∀ r ∈ st.db.dispatches,
          (numberStem proj d).data.isPrefixOf r.dispatch_no.data = true →
          (generate_dispatch_no st proj d).1 ≠ r.dispatch_no)
        ∧ (generate_dispatch_no st proj d).1 ∉ knownNumbers st proj d
        ∧ cacheLookup (generate_dispatch_no st proj d).2.cache (proj.id, d)
            = some (knownNumbers st proj d
                ++ [(generate_dispatch_no st proj d).1])
        ∧ numberingInv (generate_dispatch_no st proj d).2 proj d))
    ∧ (commit_dispatch stPool d0115 "BIG01" items15).2.1 =
      ["0115BIG0101", "0115BIG0102", "0115BIG0103", "0115BIG0104",
       "0115BIG0105", "0115BIG0106", "0115BIG0107", "0115BIG0108",
       "0115BIG0109", "0115BIG0110", "0115BIG0111", "0115BIG0112",
       "0115BIG0113", "0115BIG0114", "0115BIG0115"] := by
  constructor
  · intro st proj d hinv
    have hfresh := generate_dispatch_no_fresh st proj d
    have hspec := generate_dispatch_no_spec st proj d
    have hknown : ∀ r ∈ st.db.dispatches,
        (numberStem proj d).data.isPrefixOf r.dispatch_no.data = true →
        r.dispatch_no ∈ knownNumbers st proj d := by
      intro r hr hp
      unfold knownNumbers
      cases hcl : cacheLookup st.cache (proj.id, d) with
      | some used => exact hinv used hcl r hr hp
      | none =>
        simp only []
        exact List.mem_map.mpr ⟨r, List.mem_filter.mpr ⟨hr, hp⟩, rfl⟩
    refine ⟨?_, hfresh, hspec.2.2.2, ?_⟩
    · intro r hr hp heq
      exact hfresh (heq ▸ hknown r hr hp)
    · intro used hcl r hr hp
      rw [hspec.2.2.2] at hcl
      have hused : used = knownNumbers st proj d
          ++ [(generate_dispatch_no st proj d).1] := by
        injection hcl with h2
        exact h2.symm
      rw [hused]
      have hdb : (generate_dispatch_no st proj d).2.db = st.db := hspec.2.1
      rw [hdb] at hr
      exact List.mem_append_left _ (hknown r hr hp)
  · decide

/-- Witness for C7: over the fresh `stPool` state (empty cache, so the
invariant holds vacuously) the allocator returns `0115BIG0101`, which is
outside the known-number set. -/
theorem c7_witness :
    numberingInv stPool projBIG d0115
    ∧ (generate_dispatch_no stPool projBIG d0115).1
        ∉ knownNumbers stPool projBIG d0115
    ∧ (generate_dispatch_no stPool projBIG d0115).1 = "0115BIG0101" := by
  have hinv : numberingInv stPool projBIG d0115 := by
    intro used hcl
    have hnone : cacheLookup stPool.cache (projBIG.id, d0115) = none := by
      decide
    rw [hnone] at hcl
    exact absurd hcl (by simp)
  exact ⟨hinv,
    ((c7_numbering_never_reuses).1 stPool projBIG d0115 hinv).2.1,
    by decide⟩

/-! ## C3: price-band selection -/

/-- Rank of a `load_min_m3` column under `DESC NULLS LAST`: unset sorts
below every value. -/
def loadRank : Option Rat → WithBot Rat
  | none => (none : WithBot Rat)
  | some v => (some v : WithBot Rat)

/-- Rank of an `effective_from` column under `DESC NULLS LAST`. -/
def effRank : Option Date → WithBot Nat
  | none => (none : WithBot Nat)
  | some v => (some v.key : WithBot Nat)

/-- Qualification predicate of the claim, word for word: active, and each
window bound unset or satisfied. -/
def specQualifies (pr : ProjectPrice) (project : Project) (mix : Mix)
    (d : Date) (load_m3 : Rat) : Prop :=
  pr.project_id = project.id ∧ pr.mix_id = mix.id ∧ pr.is_active = true
  ∧ (pr.effective_from = none ∨ ∃ f, pr.effective_from = some f ∧ f ≤ d)
  ∧ (pr.effective_to = none ∨ ∃ t, pr.effective_to = some t ∧ d ≤ t)
  ∧ (pr.load_min_m3 = none ∨ ∃ m, pr.load_min_m3 = some m ∧ m ≤ load_m3)
  ∧ (pr.load_max_m3 = none ∨ ∃ m, pr.load_max_m3 = some m ∧ load_m3 ≤ m)

/-- Authority order of the claim: strictly higher defined `load_min`
(unset last), then strictly more recent defined `effective_from` (unset
last). -/
def specPrecedes (a b : ProjectPrice) : Prop :=
  loadRank b.load_min_m3 < loadRank a.load_min_m3
  ∨ (loadRank a.load_min_m3 = loadRank b.load_min_m3
      ∧ effRank b.effective_from < effRank a.effective_from)

theorem effFromBefore_iff (a b : ProjectPrice) :
    effFromBefore a b = true ↔
      effRank b.effective_from < effRank a.effective_from := by
  unfold effFromBefore effRank
  cases ha : a.effective_from with
  | none =>
    cases hb : b.effective_from with
    | none => simp [lt_irrefl]
    | some y => simp [WithBot.not_lt_none]
  | some x =>
    cases hb : b.effective_from with
    | none =>
      simp only [decide_eq_true_eq]
      constructor
      · intro _; exact WithBot.none_lt_some _
      · intro _; trivial
    | some y =>
      simp only [decide_eq_true_eq, WithBot.some_lt_some]
      constructor
      · intro h; exact h
      · intro h; exact h

theorem bandBefore_iff (a b : ProjectPrice) :
    bandBefore a b = true ↔ specPrecedes a b := by
  unfold bandBefore specPrecedes loadRank
  cases ha : a.load_min_m3 with
  | none =>
    cases hb : b.load_min_m3 with
    | none => simp [effFromBefore_iff, lt_irrefl]
    | some y => simp [effFromBefore_iff, WithBot.not_lt_none]
  | some x =>
    cases hb : b.load_min_m3 with
    | none =>
      constructor
      · intro _; exact Or.inl (WithBot.none_lt_some _)
      · intro _; rfl
    | some y =>
      by_cases h1 : qlt y x = true
      · have hlt : y < x := (qlt_iff y x).mp h1
        simp [h1, WithBot.some_lt_some, hlt]
      · have hnlt : ¬ y < x := fun hc => h1 ((qlt_iff y x).mpr hc)
        by_cases h2 : qlt x y = true
        · have hlt2 : x < y := (qlt_iff x y).mp h2
          have hne : (some x : WithBot Rat) ≠ some y := by
            intro hc
            rw [Option.some_inj.mp hc] at hlt2
            exact lt_irrefl _ hlt2
          simp [h1, h2, WithBot.some_lt_some, hnlt, hne]
        · have hnlt2 : ¬ x < y := fun hc => h2 ((qlt_iff x y).mpr hc)
          have heq : x = y := le_antisymm (le_of_not_lt hnlt) (le_of_not_lt hnlt2)
          subst heq
          simp [h1, h2, effFromBefore_iff, WithBot.some_lt_some, hnlt]

theorem specPrecedes_irrefl (a : ProjectPrice) : ¬ specPrecedes a a := by
  unfold specPrecedes
  rintro (h | ⟨-, h⟩) <;> exact lt_irrefl _ h

theorem specPrecedes_trans {a b c : ProjectPrice} (h1 : specPrecedes a b)
    (h2 : specPrecedes b c) : specPrecedes a c := by
  unfold specPrecedes at *
  rcases h1 with h1 | ⟨e1, h1⟩ <;> rcases h2 with h2 | ⟨e2, h2⟩
  · exact Or.inl (lt_trans h2 h1)
  · exact Or.inl (lt_of_le_of_lt (le_of_eq e2.symm) h1)
  · exact Or.inl (lt_of_lt_of_le h2 (le_of_eq e1.symm))
  · exact Or.inr ⟨e1.trans e2, lt_trans h2 h1⟩

theorem specPrecedes_asymm {a b : ProjectPrice} (h : specPrecedes a b) :
    ¬ specPrecedes b a :=
  fun h2 => specPrecedes_irrefl a (specPrecedes_trans h h2)

/-- The strict-weak-order exchange property of the tie-break order: if
`x` does not out-rank `b` but does out-rank `r`, then `b` out-ranks `r`. -/
theorem specPrecedes_resolve {x b r : ProjectPrice}
    (h1 : ¬ specPrecedes x b) (h2 : specPrecedes x r) : specPrecedes b r := by
  unfold specPrecedes at *
  push_neg at h1
  rcases h2 with h2 | ⟨e2, h2⟩
  · exact Or.inl (lt_of_lt_of_le h2 h1.1)
  · rcases lt_or_eq_of_le h1.1 with hlt | heq
    · exact Or.inl (lt_of_le_of_lt (le_of_eq e2.symm) hlt)
    · exact Or.inr ⟨heq.symm.trans e2, lt_of_lt_of_le h2 (h1.2 heq)⟩

theorem pickStep_mem (rest : List ProjectPrice) : ∀ (p : ProjectPrice),
    rest.foldl (fun b q => if bandBefore q b then q else b) p ∈ p :: rest := by
  induction rest with
  | nil => intro p; simp
  | cons q rest ih =>
    intro p
    rw [List.foldl_cons]
    cases h : bandBefore q p with
    | true =>
      rw [if_pos rfl]
      rcases List.mem_cons.mp (ih q) with h1 | h1
      · rw [h1]; simp
      · simp [h1]
    | false =>
      rw [if_neg Bool.false_ne_true]
      rcases List.mem_cons.mp (ih p) with h1 | h1
      · rw [h1]; simp
      · simp [h1]

theorem pickStep_maximal (rest : List ProjectPrice) : ∀ (p x : ProjectPrice),
    x ∈ p :: rest →
    ¬ specPrecedes x
        (rest.foldl (fun b q => if bandBefore q b then q else b) p) := by
  induction rest with
  | nil =>
    intro p x hx
    rw [List.mem_singleton] at hx
    subst hx
    rw [List.foldl_nil]
    exact specPrecedes_irrefl x
  | cons q rest ih =>
    intro p x hx
    rw [List.foldl_cons]
    cases h : bandBefore q p with
    | true =>
      have hqp : specPrecedes q p := (bandBefore_iff q p).mp h
      rw [if_pos rfl]
      rcases List.mem_cons.mp hx with h1 | h1
      · subst h1
        intro hxr
        have hnxq : ¬ specPrecedes x q := specPrecedes_asymm hqp
        exact ih q q (List.mem_cons_self q rest)
          (specPrecedes_resolve hnxq hxr)
      · rcases List.mem_cons.mp h1 with h2 | h2
        · subst h2; exact ih x x (List.mem_cons_self x rest)
        · exact ih q x (List.mem_cons.mpr (Or.inr h2))
    | false =>
      have hnqp : ¬ specPrecedes q p := fun hc => by
        rw [← bandBefore_iff, h] at hc
        exact Bool.false_ne_true hc
      rw [if_neg Bool.false_ne_true]
      rcases List.mem_cons.mp hx with h1 | h1
      · subst h1; exact ih x x (List.mem_cons_self x rest)
      · rcases List.mem_cons.mp h1 with h2 | h2
        · subst h2
          intro hxr
          exact ih p p (List.mem_cons_self p rest)
            (specPrecedes_resolve hnqp hxr)
        · exact ih p x (List.mem_cons.mpr (Or.inr h2))

theorem pickBest_none_iff (l : List ProjectPrice) :
    pickBest l = none ↔ l = [] := by
  cases l <;> simp [pickBest]

theorem pickBest_some {l : List ProjectPrice} {r : ProjectPrice}
    (h : pickBest l = some r) :
    r ∈ l ∧ ∀ x ∈ l, ¬ specPrecedes x r := by
  cases l with
  | nil => simp [pickBest] at h
  | cons p rest =>
    simp only [pickBest, Option.some_inj] at h
    subst h
    exact ⟨pickStep_mem rest p, fun x hx => pickStep_maximal rest p x hx⟩

/-- Bridge between each SQL `filter(...)` clause of `get_price` and the
wording of qualification in the claim. -/
theorem priceQualifies_iff_spec (pr : ProjectPrice) (project : Project)
    (mix : Mix) (d : Date) (load : Rat) :
    priceQualifies pr project.id mix.id d load = true ↔
      specQualifies pr project mix d load := by
  unfold priceQualifies specQualifies
  cases hf : pr.effective_from <;> cases ht : pr.effective_to <;>
    cases hmin : pr.load_min_m3 <;> cases hmax : pr.load_max_m3 <;>
    simp [Bool.and_eq_true, beq_iff_eq, qle_iff, hf, ht, hmin, hmax,
      and_assoc]

theorem get_price_eq_match (db : Db) (project : Project) (mix : Mix)
    (d : Date) (load : Rat) :
    get_price db project mix d load =
      match pickBest (db.prices.filter
          (fun pr => priceQualifies pr project.id mix.id d load)) with
      | some pr => .ok pr.price_per_m3
      | none => .error (.noPriceFound project.code mix.code load) := rfl

/-- C3: for every `get_price` call, a stored price band qualifies exactly
when it matches the project and mix, is active, and each window bound
(`effective_from`, `effective_to`, `load_min_m3`, `load_max_m3`) is unset
or satisfied by the dispatch date and load; the call fails with
`NoPriceFound` exactly when no band qualifies; and a returned price is the
`price_per_m3` of a qualifying band that no other qualifying band
out-ranks under highest-defined-`load_min`-first (unset last), then
most-recent-defined-`effective_from` (unset last). -/
theorem c3_get_price_band_selection (db : Db) (project : Project)
    (mix : Mix) (d : Date) (load_m3 : Rat) :
    (∀ pr ∈ db.prices,
        (priceQualifies pr project.id mix.id d load_m3 = true ↔
          specQualifies pr project mix d load_m3))
    ∧ (get_price db project mix d load_m3
          = .error (.noPriceFound project.code mix.code load_m3) ↔
        ∀ pr ∈ db.prices, ¬ specQualifies pr project mix d load_m3)
    ∧ (∀ v, get_price db project mix d load_m3 = .ok v →
        ∃ pr ∈ db.prices, specQualifies pr project mix d load_m3
          ∧ pr.price_per_m3 = v
          ∧ ∀ pr2 ∈ db.prices, specQualifies pr2 project mix d load_m3 →
              ¬ specPrecedes pr2 pr) := by
  refine ⟨fun pr _ => priceQualifies_iff_spec pr project mix d load_m3,
    ?_, ?_⟩
  · rw [get_price_eq_match]
    cases hp : pickBest (db.prices.filter
        (fun pr => priceQualifies pr project.id mix.id d load_m3)) with
    | none =>
      simp only []
      constructor
      · intro _ pr hpr hq
        have hmem : pr ∈ db.prices.filter
            (fun pr => priceQualifies pr project.id mix.id d load_m3) :=
          List.mem_filter.mpr
            ⟨hpr, (priceQualifies_iff_spec pr project mix d load_m3).mpr hq⟩
        rw [(pickBest_none_iff _).mp hp] at hmem
        exact absurd hmem (List.not_mem_nil pr)
      · intro _; trivial
    | some r =>
      constructor
      · intro hc; exact absurd hc (by simp)
      · intro hall
        have hr := pickBest_some hp
        have hrq := List.mem_filter.mp hr.1
        exact absurd
          ((priceQualifies_iff_spec r project mix d load_m3).mp hrq.2)
          (hall r hrq.1)
  · intro v hv
    rw [get_price_eq_match] at hv
    cases hp : pickBest (db.prices.filter
        (fun pr => priceQualifies pr project.id mix.id d load_m3)) with
    | none => rw [hp] at hv; exact absurd hv (by simp)
    | some r =>
      rw [hp] at hv
      have hvr : r.price_per_m3 = v := by
        injection hv
      have hr := pickBest_some hp
      have hrq := List.mem_filter.mp hr.1
      refine ⟨r, hrq.1,
        (priceQualifies_iff_spec r project mix d load_m3).mp hrq.2, hvr,
        fun pr2 hpr2 hq2 => ?_⟩
      exact hr.2 pr2 (List.mem_filter.mpr
        ⟨hpr2, (priceQualifies_iff_spec pr2 project mix d load_m3).mpr hq2⟩)

/-- Witness: on the reference store, `get_price` returns the 2800 band,
and the theorem then produces a maximal qualifying band for it. -/
theorem c3_witness :
    get_price dbC8 projBIG mix3000 d0115 5 = .ok 2800
    ∧ ∃ pr ∈ dbC8.prices, specQualifies pr projBIG mix3000 d0115 5
        ∧ pr.price_per_m3 = 2800
        ∧ ∀ pr2 ∈ dbC8.prices, specQualifies pr2 projBIG mix3000 d0115 5 →
            ¬ specPrecedes pr2 pr :=
  ⟨by decide,
    (c3_get_price_band_selection dbC8 projBIG mix3000 d0115 5).2.2 2800
      (by decide)⟩
